import Mathlib

/-!
Shallow embedding of the `dami` tabular data engine core, translated from the
repository sources:

* `src/core/series.rs`, `src/core/series/generic.rs`, `src/core/series/ops.rs` —
  the `Series<T>` column type (backing array, name, string index labels, dtype tag),
  its constructors and elementwise operations;
* `src/core/block_manager/manager.rs` — the per-type `Block<T>` group;
* `src/core/block_manager.rs` — the heterogeneous `BlockManager` store
  (`add_series`, `get`, `assign`, `assign_inplace`, `clone`, `get_appropriate_block`);
* `src/core/block_manager/ops.rs` — the arithmetic-operator macro between two stores;
* `src/core/dataframe.rs` — the thin `DataFrame` facade;
* `src/enums.rs` — `DataTypes` and `DataFrameErrors`.

Modelling conventions:

* Rust `panic!` / failed `unwrap` / out-of-bounds indexing / violated `assert_eq!` is
  the `Res.panicked` outcome of the explicit result type `Res`; recoverable
  `Result<_, DataFrameErrors>` errors are `Except` values inside a `Res.ok`.
* `debug_assert!` is compiled out in release builds; functions whose behaviour differs
  between builds get a second `_dbg` variant that keeps the assertion.
* `ndarray::Array1<T>` is modelled as `List T`; `HashMap` fields of the store are
  modelled as association lists with unique keys (`values`) or Option-valued fields
  per tag (`blocks`); where the source iterates a `HashMap` in unspecified order we
  fix the declaration order of the tags (F64, F32, I64, I32, STRING, STR, BOOL).
* The Rust scalar types `f64`, `f32`, `i64`, `i32` are modelled by wrapper structures
  over `Int` (the claims under verification only concern structural behaviour of the
  store, never float rounding); `String`/`&str`/`bool` by `String`/`RStr`/`Bool`; a
  sample unsupported element type is `Opaque`.  `std::any::Any::is::<U>` inspects
  only the static type of a value, which we model by the `Rusty` type-class carrying
  a `TypeRep` token per Rust type.
-/

/-- The `DataTypes` enum from `src/enums.rs`. -/
inductive DataTypes where
  | I32 | I64 | F32 | F64 | STRING | STR | BOOL | OBJECT
deriving DecidableEq, Repr

/-- The `DataFrameErrors` enum from `src/enums.rs`. -/
inductive DataFrameErrors where
  | DifferentLength (me other : Nat)
  | ColumnNameErrors (column : String)
  | KeyError (err : String)
deriving DecidableEq, Repr

/-- Outcome of a Rust computation: a value, or a process-terminating panic
(failed `unwrap`, violated `assert_eq!`, out-of-bounds index). -/
inductive Res (α : Type) where
  | ok (val : α)
  | panicked
deriving DecidableEq, Repr

def Res.map {α β : Type} (f : α → β) : Res α → Res β
  | .ok a => .ok (f a)
  | .panicked => .panicked

def Res.bind {α β : Type} : Res α → (α → Res β) → Res β
  | .ok a, f => f a
  | .panicked, _ => .panicked

deriving instance DecidableEq for Except

/-- Identity tokens for the Rust static types that appear as `Series<T>` element
types; `std::any::Any::is::<U>` is equality of these tokens. `tother` stands for
an arbitrary unsupported type. -/
inductive TypeRep where
  | tf64 | tf32 | ti64 | ti32 | tstring | tstr | tbool | tother
deriving DecidableEq, Repr

/-- Type-class carrying the static-type token of a Lean carrier type for a Rust type. -/
class Rusty (α : Type) where
  rep : TypeRep

/-- Carrier of Rust `f64` (claims only exercise integral values, so `Int` suffices). -/
structure F64 where
  val : Int
deriving DecidableEq, Repr

/-- Carrier of Rust `f32`. -/
structure F32 where
  val : Int
deriving DecidableEq, Repr

/-- Carrier of Rust `i64`. -/
structure I64 where
  val : Int
deriving DecidableEq, Repr

/-- Carrier of Rust `i32`. -/
structure I32 where
  val : Int
deriving DecidableEq, Repr

/-- Carrier of Rust `&'static str`. -/
structure RStr where
  val : String
deriving DecidableEq, Repr

/-- A sample element type that is not one of the seven supported scalar kinds. -/
structure Opaque where
  val : Unit
deriving DecidableEq, Repr

instance : Rusty F64 := ⟨.tf64⟩
instance : Rusty F32 := ⟨.tf32⟩
instance : Rusty I64 := ⟨.ti64⟩
instance : Rusty I32 := ⟨.ti32⟩
instance : Rusty String := ⟨.tstring⟩
instance : Rusty RStr := ⟨.tstr⟩
instance : Rusty Bool := ⟨.tbool⟩
instance : Rusty Opaque := ⟨.tother⟩

instance : Inhabited F64 := ⟨⟨0⟩⟩
instance : Inhabited F32 := ⟨⟨0⟩⟩
instance : Inhabited I64 := ⟨⟨0⟩⟩
instance : Inhabited I32 := ⟨⟨0⟩⟩
instance : Inhabited RStr := ⟨⟨""⟩⟩
instance : Inhabited Opaque := ⟨⟨()⟩⟩

instance : Add F64 := ⟨fun a b => ⟨a.val + b.val⟩⟩
instance : Add F32 := ⟨fun a b => ⟨a.val + b.val⟩⟩
instance : Add I64 := ⟨fun a b => ⟨a.val + b.val⟩⟩
instance : Add I32 := ⟨fun a b => ⟨a.val + b.val⟩⟩

/-- Model of `get_type` resolved on a static-type token: the ordered `Any::is` chain of
`src/core/series.rs` lines 362-381 (F64 → F32 → I64 → I32 → STRING → STR → BOOL,
everything else OBJECT). -/
def get_typeR (r : TypeRep) : DataTypes :=
  if r = .tf64 then .F64
  else if r = .tf32 then .F32
  else if r = .ti64 then .I64
  else if r = .ti32 then .I32
  else if r = .tstring then .STRING
  else if r = .tstr then .STR
  else if r = .tbool then .BOOL
  else .OBJECT

/-- Model of `get_type(value)` from `src/core/series.rs`: the `&dyn Any` checks inspect only
the static type of `value`, never the value itself, so the result depends only on
the `Rusty` token of `α`. -/
def get_type {α : Type} [Rusty α] (_value : α) : DataTypes :=
  get_typeR (Rusty.rep α)

/-- The `Series<T>` struct from `src/core/series.rs`: backing array, name, string
index labels and dtype tag. -/
structure Series (α : Type) where
  array : List α
  name : String
  index : List String
  dtype : DataTypes
deriving DecidableEq, Repr

/-- Model of `create_index` from `src/core/series/generic.rs` lines 609-613. -/
def create_index (len : Nat) (pre suf : String) : List String :=
  (List.range len).map (fun f => pre ++ toString f ++ suf)

/-- Model of `From<Vec<T>> for Series<T>` (`src/core/series.rs` lines 101-116); the
`From<Array1<T>>` and `From<&[T]>` impls have the same body. The dtype is computed
from the first element, or from `T::default()` when the vector is empty. -/
def Series.fromList {α : Type} [Rusty α] [Inhabited α] (vector : List α) : Series α :=
  { array := vector
    name := "series"
    index := create_index vector.length "" ""
    dtype := get_type (vector.headD default) }

/-- Model of `Default for Series<T>` (`src/core/series.rs` lines 90-99). -/
def Series.defaultS (α : Type) [Rusty α] [Inhabited α] : Series α :=
  { array := [], name := "series", index := [], dtype := get_type (default : α) }

/-- Model of `Series::set_name` from `src/core/series/generic.rs`. -/
def Series.set_name {α : Type} (s : Series α) (name : String) : Series α :=
  { s with name := name }

/-- Model of `Series::get_name`. -/
def Series.get_name {α : Type} (s : Series α) : String := s.name

/-- Model of `Series::len`. -/
def Series.len {α : Type} (s : Series α) : Nat := s.array.length

/-- Number of distinct labels, via a `HashSet` as in `validate_names`
(`src/core/series/generic.rs` lines 600-607). -/
def distinctCount (l : List String) : Nat := l.eraseDups.length

/-- Model of `Series::reindex` (`src/core/series/generic.rs` lines 203-213), release build:
the `debug_assert_eq!` on lengths is compiled out; when `verify_integrity` is set,
`validate_names(..).unwrap()` panics if the distinct-label counts differ. -/
def Series.reindex {α : Type} (s : Series α) (new_index : List String)
    (verify_integrity : Bool) : Res (Series α) :=
  if verify_integrity ∧ distinctCount s.index ≠ distinctCount new_index then
    .panicked
  else
    .ok { s with index := new_index }

/-- Model of `Series::apply` (`src/core/series/generic.rs` lines 126-130): builds
`Series::from(self.array.mapv(func))` (fresh default index) and copies the name. -/
def Series.apply {α : Type} [Rusty α] [Inhabited α] (s : Series α) (func : α → α) :
    Series α :=
  { Series.fromList (s.array.map func) with name := s.name }

/-- Model of `Series::apply_inplace` (`src/core/series/generic.rs` lines 153-159):
`mapv_inplace` rewrites the backing array only. -/
def Series.apply_inplace {α : Type} (s : Series α) (func : α → α) : Series α :=
  { s with array := s.array.map func }

/-- Model of `Series::mask` (`src/core/series/generic.rs` lines 504-515): a fresh series from
the masked array, then `set_name(self.get_name())`. -/
def Series.mask {α : Type} [Rusty α] [Inhabited α] (s : Series α) (value : α)
    (cond : α → Bool) : Series α :=
  (Series.fromList (s.array.map (fun f => if cond f then value else f))).set_name
    s.get_name

/-- Model of `Series::mask_inplace` (`src/core/series/generic.rs` lines 518-524). -/
def Series.mask_inplace {α : Type} (s : Series α) (value : α) (cond : α → Bool) :
    Series α :=
  { s with array := s.array.map (fun f => if cond f then value else f) }

/-- Model of `Series::transform` (`src/core/series/generic.rs` lines 571-579): a fresh series
from the transformed array, then `set_name(self.get_name())`. -/
def Series.transform {α β : Type} [Rusty β] [Inhabited β] (s : Series α)
    (func : α → β) : Series β :=
  (Series.fromList (s.array.map func)).set_name s.get_name

/-- Element loop of `Series::combine` (`src/core/series/generic.rs` lines 236-253),
release build: walk `self.array`, indexing `other.array[len]` — out of bounds (a
panic) when `other` is shorter, silently ignoring the tail of `other` when it is
longer. -/
def combineVals {α : Type} (func : α → α → α) : List α → List α → Res (List α)
  | [], _ => .ok []
  | _ :: _, [] => .panicked
  | x :: xs, y :: ys => (combineVals func xs ys).map (fun r => func x y :: r)

/-- Model of `Series::combine`, release build: the `debug_assert_eq!` on lengths is compiled
out; the result is `Series::from(..)` (the source does not copy the name). -/
def Series.combine {α : Type} [Rusty α] [Inhabited α] (s other : Series α)
    (func : α → α → α) : Res (Series α) :=
  (combineVals func s.array other.array).map Series.fromList

/-- Model of `Series::combine`, debug build: the `debug_assert_eq!(self.len(), other.len())`
panics on unequal lengths before any element is touched. -/
def Series.combine_dbg {α : Type} [Rusty α] [Inhabited α] (s other : Series α)
    (func : α → α → α) : Res (Series α) :=
  if s.len = other.len then s.combine other func else .panicked

/-- Element loop of `Series::equals` (`src/core/series/generic.rs` lines 346-363),
release build: walk `self.array`, returning `false` at the first position where the
elements are equal (before any later out-of-bounds access), indexing
`other[len]` — a panic when `other` runs out first. -/
def equalsVals {α : Type} [DecidableEq α] : List α → List α → Res Bool
  | [], _ => .ok true
  | _ :: _, [] => .panicked
  | x :: xs, y :: ys => if x = y then .ok false else equalsVals xs ys

/-- Model of `Series::equals`, release build (the `debug_assert_eq!` on lengths is compiled
out). -/
def Series.equals {α : Type} [DecidableEq α] (s other : Series α) : Res Bool :=
  equalsVals s.array other.array

/-- Elementwise `impl Add for Series<T>` (`src/core/series/ops.rs` lines 4-18):
zip with `rhs` (truncating to the shorter), rebuild via `Series::from`, then
`set_name(self.get_name())`. -/
def Series.addS {α : Type} [Rusty α] [Inhabited α] [Add α] (s rhs : Series α) :
    Series α :=
  (Series.fromList ((s.array.zip rhs.array).map (fun p => p.1 + p.2))).set_name
    s.get_name

/-- The `Block<T>` Group from `src/core/block_manager/manager.rs`: parallel lists of
series and their names. -/
structure Block (α : Type) where
  data : List (Series α)
  names : List String
deriving DecidableEq, Repr

/-- Model of `Block::push` (`src/core/block_manager/manager.rs` lines 102-114): when the block
is non-empty, `assert_eq!` (a panic on violation) that the new series' length equals
the first stored series' length; then push name and series. -/
def Block.push {α : Type} (b : Block α) (other : Series α) : Res (Block α) :=
  match b.data with
  | [] => .ok { data := b.data ++ [other], names := b.names ++ [other.name] }
  | s0 :: _ =>
    if s0.array.length = other.array.length then
      .ok { data := b.data ++ [other], names := b.names ++ [other.name] }
    else
      .panicked

/-- Model of `Block::get` (`src/core/block_manager/manager.rs` lines 134-136):
`self.data[idx].clone()`, a panic when out of bounds. -/
def Block.getAt {α : Type} (b : Block α) (idx : Nat) : Res (Series α) :=
  match b.data.get? idx with
  | some s => .ok s
  | none => .panicked

/-- Model of `Block::get_series_at_name` (`src/core/block_manager/manager.rs` lines 141-143):
`position(..).unwrap()` — a panic when `name` is not among the block's names. -/
def Block.get_series_at_name {α : Type} (b : Block α) (name : String) :
    Res (Series α) :=
  match b.names.findIdx? (fun f => f = name) with
  | none => .panicked
  | some i => b.getAt i

/-- Lookup in the `values: HashMap<String, DataTypes>` name→tag index, modelled as an
association list with unique keys. -/
def lookupTag (k : String) (l : List (String × DataTypes)) : Option DataTypes :=
  match l with
  | [] => none
  | p :: rest => if p.1 = k then some p.2 else lookupTag k rest

/-- Model of `HashMap::insert`: replace the binding when the key is present, append otherwise. -/
def insertTag (k : String) (v : DataTypes) (l : List (String × DataTypes)) :
    List (String × DataTypes) :=
  if (lookupTag k l).isSome then
    l.map (fun p => if p.1 = k then (k, v) else p)
  else
    l ++ [(k, v)]

/-- Model of `HashMap::remove`. -/
def removeKey (k : String) (l : List (String × DataTypes)) :
    List (String × DataTypes) :=
  l.filter (fun p => p.1 ≠ k)

/-- The `BlockManager` store from `src/core/block_manager.rs` lines 23-35.
`blocks: HashMap<DataTypes, Box<dyn Any>>` is modelled by one optional typed block
per supported tag (in every reachable state the box under key τ holds a `Block` of
τ's element type, and no block is ever stored under OBJECT). -/
structure BlockManager where
  f64B : Option (Block F64) := none
  f32B : Option (Block F32) := none
  i64B : Option (Block I64) := none
  i32B : Option (Block I32) := none
  stringB : Option (Block String) := none
  strB : Option (Block RStr) := none
  boolB : Option (Block Bool) := none
  values : List (String × DataTypes) := []
  names : List String := []
  len : Nat := 0
  index : List String := []
deriving DecidableEq, Repr

/-- Model of `BlockManager::default()`: every field empty. -/
def BlockManager.empty : BlockManager := {}

/-- Model of `self.blocks.is_empty()`: no block under any tag. -/
def BlockManager.blocksEmpty (m : BlockManager) : Bool :=
  m.f64B.isNone && m.f32B.isNone && m.i64B.isNone && m.i32B.isNone &&
    m.stringB.isNone && m.strB.isNone && m.boolB.isNone

/-- A `Series<T>` together with its static element type `T`, as it travels through
`add_series<T>` into the type-erased store (`Box<dyn Any>`). -/
inductive TSeries where
  | sf64 (s : Series F64)
  | sf32 (s : Series F32)
  | si64 (s : Series I64)
  | si32 (s : Series I32)
  | sstring (s : Series String)
  | sstr (s : Series RStr)
  | sbool (s : Series Bool)
  | sobject (s : Series Opaque)
deriving DecidableEq, Repr

/-- Model of `other.get_name()` through the type-erased wrapper. -/
def TSeries.tname : TSeries → String
  | .sf64 s => s.name
  | .sf32 s => s.name
  | .si64 s => s.name
  | .si32 s => s.name
  | .sstring s => s.name
  | .sstr s => s.name
  | .sbool s => s.name
  | .sobject s => s.name

/-- Model of `other.len()`. -/
def TSeries.tlen : TSeries → Nat
  | .sf64 s => s.array.length
  | .sf32 s => s.array.length
  | .si64 s => s.array.length
  | .si32 s => s.array.length
  | .sstring s => s.array.length
  | .sstr s => s.array.length
  | .sbool s => s.array.length
  | .sobject s => s.array.length

/-- Model of `other.get_dtype()`: the stored dtype field. -/
def TSeries.tdtype : TSeries → DataTypes
  | .sf64 s => s.dtype
  | .sf32 s => s.dtype
  | .si64 s => s.dtype
  | .si32 s => s.dtype
  | .sstring s => s.dtype
  | .sstr s => s.dtype
  | .sbool s => s.dtype
  | .sobject s => s.dtype

/-- Model of `other.get_index()`. -/
def TSeries.tindex : TSeries → List String
  | .sf64 s => s.index
  | .sf32 s => s.index
  | .si64 s => s.index
  | .si32 s => s.index
  | .sstring s => s.index
  | .sstr s => s.index
  | .sbool s => s.index
  | .sobject s => s.index

/-- Model of `other.set_name(..)`. -/
def TSeries.withName : TSeries → String → TSeries
  | .sf64 s, n => .sf64 (s.set_name n)
  | .sf32 s, n => .sf32 (s.set_name n)
  | .si64 s, n => .si64 (s.set_name n)
  | .si32 s, n => .si32 (s.set_name n)
  | .sstring s, n => .sstring (s.set_name n)
  | .sstr s, n => .sstr (s.set_name n)
  | .sbool s, n => .sbool (s.set_name n)
  | .sobject s, n => .sobject (s.set_name n)

/-- The tag of the wrapper's static element type (which tag the `downcast` in
`get_appropriate_block` succeeds for). -/
def TSeries.ctorTag : TSeries → DataTypes
  | .sf64 _ => .F64
  | .sf32 _ => .F32
  | .si64 _ => .I64
  | .si32 _ => .I32
  | .sstring _ => .STRING
  | .sstr _ => .STR
  | .sbool _ => .BOOL
  | .sobject _ => .OBJECT

/-- Push into an optional block: existing block, or `Block::default()` then push
(`src/core/block_manager.rs` pattern repeated per tag in `get_appropriate_block`). -/
def pushInto {α : Type} (b : Option (Block α)) (s : Series α) : Res (Block α) :=
  match b with
  | some blk => blk.push s
  | none => Block.push { data := [], names := [] } s

/-- Model of `BlockManager::get_appropriate_block` (`src/core/block_manager.rs` lines
226-317): dispatch on the dtype tag, `downcast` the boxed series to that tag's
static type (a panic when the series' static type disagrees with its dtype field)
and push into the tag's block; the OBJECT arm pops the just-pushed name, removes it
from the name→tag index, and prints a diagnostic to stderr (dropping the column,
not storing it). -/
def BlockManager.get_appropriate_block (m : BlockManager) (dtype : DataTypes)
    (other : TSeries) : Res BlockManager :=
  match dtype with
  | .F64 =>
    match other with
    | .sf64 s => (pushInto m.f64B s).map (fun b => { m with f64B := some b })
    | _ => .panicked
  | .F32 =>
    match other with
    | .sf32 s => (pushInto m.f32B s).map (fun b => { m with f32B := some b })
    | _ => .panicked
  | .I64 =>
    match other with
    | .si64 s => (pushInto m.i64B s).map (fun b => { m with i64B := some b })
    | _ => .panicked
  | .I32 =>
    match other with
    | .si32 s => (pushInto m.i32B s).map (fun b => { m with i32B := some b })
    | _ => .panicked
  | .STRING =>
    match other with
    | .sstring s => (pushInto m.stringB s).map (fun b => { m with stringB := some b })
    | _ => .panicked
  | .STR =>
    match other with
    | .sstr s => (pushInto m.strB s).map (fun b => { m with strB := some b })
    | _ => .panicked
  | .BOOL =>
    match other with
    | .sbool s => (pushInto m.boolB s).map (fun b => { m with boolB := some b })
    | _ => .panicked
  | .OBJECT =>
    match m.names.getLast? with
    | none => .panicked
    | some nm =>
      .ok { m with names := m.names.dropLast, values := removeKey nm m.values }

/-- Model of `BlockManager::add_series` (`src/core/block_manager.rs` lines 58-87), in source
order: (1) reject with `DifferentLength` when blocks exist and the length differs;
(2) on a name collision (or `preserve_names = false`) rename to the current
`values.len()` rendered as a string, rejecting with `ColumnNameErrors` when that
name also collides; (3) when no blocks exist yet, adopt the incoming length and
extend the row index; (4) push the name, record the tag, and store via
`get_appropriate_block`. -/
def BlockManager.adoptIfEmpty (m : BlockManager) (other : TSeries) : BlockManager :=
  if m.blocksEmpty then
    { m with len := other.tlen, index := m.index ++ other.tindex }
  else m

/-- Steps (3)-(5) of `BlockManager::add_series` for the (possibly renamed) incoming
column `other`: when no blocks exist yet adopt `other`'s length and extend the row
index, push the name, record the tag, and store via `get_appropriate_block`. -/
def BlockManager.store_col (m : BlockManager) (other : TSeries) :
    Res (Except DataFrameErrors Unit × BlockManager) :=
  (({ m.adoptIfEmpty other with
        names := (m.adoptIfEmpty other).names ++ [other.tname]
        values :=
          insertTag other.tname other.tdtype
            (m.adoptIfEmpty other).values }).get_appropriate_block
      other.tdtype other).map (fun m3 => (.ok (), m3))

def BlockManager.add_series (m : BlockManager) (other0 : TSeries)
    (preserve_names : Bool) : Res (Except DataFrameErrors Unit × BlockManager) :=
  if m.blocksEmpty = false ∧ other0.tlen ≠ m.len then
    .ok (.error (.DifferentLength other0.tlen m.len), m)
  else if m.names.contains other0.tname || !preserve_names then
    -- the rename arm: `other.set_name(values.len())`, then the second collision check
    if m.names.contains (toString m.values.length) then
      .ok (.error (.ColumnNameErrors (toString m.values.length)), m)
    else
      m.store_col (other0.withName (toString m.values.length))
  else
    m.store_col other0

/-- The generic parameter `T` of the store's typed operations, restricted to the
Rust types the store can actually hold plus a representative unsupported type. -/
inductive RType where
  | rf64 | rf32 | ri64 | ri32 | rstring | rstr | rbool | rother
deriving DecidableEq, Repr

/-- Lean carrier of the Rust type named by an `RType`. -/
@[reducible] def RType.carrier : RType → Type
  | .rf64 => F64
  | .rf32 => F32
  | .ri64 => I64
  | .ri32 => I32
  | .rstring => String
  | .rstr => RStr
  | .rbool => Bool
  | .rother => Opaque

def RType.rusty : (t : RType) → Rusty t.carrier
  | .rf64 => inferInstance
  | .rf32 => inferInstance
  | .ri64 => inferInstance
  | .ri32 => inferInstance
  | .rstring => inferInstance
  | .rstr => inferInstance
  | .rbool => inferInstance
  | .rother => inferInstance

def RType.inh : (t : RType) → Inhabited t.carrier
  | .rf64 => inferInstance
  | .rf32 => inferInstance
  | .ri64 => inferInstance
  | .ri32 => inferInstance
  | .rstring => inferInstance
  | .rstr => inferInstance
  | .rbool => inferInstance
  | .rother => inferInstance

/-- Wrap a typed series back into the type-erased form (`Box::new(series)`). -/
def mkT : (t : RType) → Series t.carrier → TSeries
  | .rf64, s => .sf64 s
  | .rf32, s => .sf32 s
  | .ri64, s => .si64 s
  | .ri32, s => .si32 s
  | .rstring, s => .sstring s
  | .rstr, s => .sstr s
  | .rbool, s => .sbool s
  | .rother, s => .sobject s

/-- Which stored block `downcast_ref::<Block<T>>` succeeds on: exactly the block of
`T`'s tag (an unsupported `T` matches no stored block). -/
def BlockManager.blockFor (m : BlockManager) : (t : RType) → Option (Block t.carrier)
  | .rf64 => m.f64B
  | .rf32 => m.f32B
  | .ri64 => m.i64B
  | .ri32 => m.i32B
  | .rstring => m.stringB
  | .rstr => m.strB
  | .rbool => m.boolB
  | .rother => none

/-- Model of `BlockManager::get` (`src/core/block_manager.rs` lines 433-443): scan the blocks
for one that downcasts to `Block<T>`; when found, return
`block.get_series_at_name(col)` — which panics when `col` is not in that block —
and `None` when no block has element type `T`. -/
def BlockManager.get (m : BlockManager) (t : RType) (col : String) :
    Res (Option (Series t.carrier)) :=
  match m.blockFor t with
  | none => .ok none
  | some b => (b.get_series_at_name col).map some

/-- Series list of an optional block. -/
def optSeries {α : Type} (b : Option (Block α)) : List (Series α) :=
  match b with
  | none => []
  | some blk => blk.data

/-- Model of `BlockManager::extend_from_block` (`src/core/block_manager.rs` lines 139-146)
iterated over a list of type-erased series: each is `add_series(i, true).unwrap()`
(a panic on a recoverable error). -/
def extendAll (m : BlockManager) : List TSeries → Res BlockManager
  | [] => .ok m
  | ts :: rest =>
    (m.add_series ts true).bind (fun pr =>
      match pr.1 with
      | .ok _ => extendAll pr.2 rest
      | .error _ => .panicked)

/-- Model of `Clone for BlockManager` (`src/core/block_manager.rs` lines 509-548): re-insert
every stored column block by block (the source iterates the `HashMap` in
unspecified order; we fix the tag declaration order F64, F32, I64, I32, STRING,
STR, BOOL), skip OBJECT, then `reindex` the presentation order back to the
original names. -/
def BlockManager.clone (m : BlockManager) : Res BlockManager :=
  (extendAll {}
      ((optSeries m.f64B).map .sf64 ++ (optSeries m.f32B).map .sf32 ++
        (optSeries m.i64B).map .si64 ++ (optSeries m.i32B).map .si32 ++
        (optSeries m.stringB).map .sstring ++ (optSeries m.strB).map .sstr ++
        (optSeries m.boolB).map .sbool)).map
    (fun mgr => { mgr with names := m.names })

/-- Model of `BlockManager::assign` (`src/core/block_manager.rs` lines 161-181): fetch the
`T`-typed column at `key`, apply `func`, rename to `name`, clone the store and
`add_series(new_series, true).unwrap()`; `KeyError` when the fetch returns `None`. -/
def BlockManager.assign (m : BlockManager) (t : RType) (key name : String)
    (func : t.carrier → t.carrier) : Res (Except DataFrameErrors BlockManager) :=
  (m.get t key).bind (fun r =>
    match r with
    | some series =>
      let new_series :=
        (@Series.apply t.carrier t.rusty t.inh series func).set_name name
      (m.clone).bind (fun df =>
        (df.add_series (mkT t new_series) true).bind (fun pr =>
          match pr.1 with
          | .ok _ => .ok (.ok pr.2)
          | .error _ => .panicked))
    | none => .ok (.error (.KeyError ("key " ++ key ++ " does not exist"))))

/-- Model of `BlockManager::assign_inplace` (`src/core/block_manager.rs` lines 182-201).
Note the source computes `new_series` (apply `func`, rename) but then executes
`self.add_series(series, true)` — pushing the ORIGINAL fetched column, so the
renamed transformed column is discarded; the model reproduces this faithfully. -/
def BlockManager.assign_inplace (m : BlockManager) (t : RType) (key name : String)
    (func : t.carrier → t.carrier) : Res (Except DataFrameErrors BlockManager) :=
  (m.get t key).bind (fun r =>
    match r with
    | some series =>
      let _new_series :=
        (@Series.apply t.carrier t.rusty t.inh series func).set_name name
      (m.add_series (mkT t series) true).bind (fun pr =>
        match pr.1 with
        | .ok _ => .ok (.ok pr.2)
        | .error _ => .panicked)
    | none => .ok (.error (.KeyError ("key " ++ key ++ " does not exist"))))

/-- One step of the loop body of the `generate_df_ops!` macro
(`src/core/block_manager/ops.rs` lines 7-83), instantiated for `Add`.  For each
name of the left operand (in presentation order): look up its tag
(`values.get(i).unwrap()`), and for the four numeric tags fetch
`blocks.get(dtype).unwrap().downcast_ref().unwrap().get(f64_counter)` — the source
uses `f64_counter` as the fetch index in ALL four numeric arms, while the
per-type counters `f32_counter`/`i64_counter`/`i32_counter` are only incremented —
then, when `rhs.get(i)` finds the name under the same static type, push the
elementwise sum into the accumulator with `add_series(.., true).unwrap()`.
Non-numeric tags are skipped. -/
def dfAddLoop (selfM rhs : BlockManager) : List String → BlockManager →
    Nat → Nat → Nat → Nat → Res BlockManager
  | [], acc, _, _, _, _ => .ok acc
  | i :: rest, acc, f64c, f32c, i64c, i32c =>
    match lookupTag i selfM.values with
    | none => .panicked
    | some dt =>
      match dt with
      | .F64 =>
        match selfM.f64B with
        | none => .panicked
        | some blk =>
          (blk.getAt f64c).bind (fun me =>
            (rhs.get .rf64 i).bind (fun r =>
              match r with
              | some other =>
                (acc.add_series (.sf64 (me.addS other)) true).bind (fun pr =>
                  match pr.1 with
                  | .ok _ => dfAddLoop selfM rhs rest pr.2 (f64c + 1) f32c i64c i32c
                  | .error _ => .panicked)
              | none => dfAddLoop selfM rhs rest acc f64c f32c i64c i32c))
      | .F32 =>
        match selfM.f32B with
        | none => .panicked
        | some blk =>
          (blk.getAt f64c).bind (fun me =>
            (rhs.get .rf32 i).bind (fun r =>
              match r with
              | some other =>
                (acc.add_series (.sf32 (me.addS other)) true).bind (fun pr =>
                  match pr.1 with
                  | .ok _ => dfAddLoop selfM rhs rest pr.2 f64c (f32c + 1) i64c i32c
                  | .error _ => .panicked)
              | none => dfAddLoop selfM rhs rest acc f64c f32c i64c i32c))
      | .I64 =>
        match selfM.i64B with
        | none => .panicked
        | some blk =>
          (blk.getAt f64c).bind (fun me =>
            (rhs.get .ri64 i).bind (fun r =>
              match r with
              | some other =>
                (acc.add_series (.si64 (me.addS other)) true).bind (fun pr =>
                  match pr.1 with
                  | .ok _ => dfAddLoop selfM rhs rest pr.2 f64c f32c (i64c + 1) i32c
                  | .error _ => .panicked)
              | none => dfAddLoop selfM rhs rest acc f64c f32c i64c i32c))
      | .I32 =>
        match selfM.i32B with
        | none => .panicked
        | some blk =>
          (blk.getAt f64c).bind (fun me =>
            (rhs.get .ri32 i).bind (fun r =>
              match r with
              | some other =>
                (acc.add_series (.si32 (me.addS other)) true).bind (fun pr =>
                  match pr.1 with
                  | .ok _ => dfAddLoop selfM rhs rest pr.2 f64c f32c i64c (i32c + 1)
                  | .error _ => .panicked)
              | none => dfAddLoop selfM rhs rest acc f64c f32c i64c i32c))
      | _ => dfAddLoop selfM rhs rest acc f64c f32c i64c i32c

/-- Model of `impl Add for BlockManager` (the `generate_df_ops!(Add, add)` instantiation):
run the loop over the left operand's names starting from an empty accumulator and
zeroed counters. -/
def BlockManager.addOp (selfM rhs : BlockManager) : Res BlockManager :=
  dfAddLoop selfM rhs selfM.names {} 0 0 0 0

/-- The `DataFrame` facade (`src/core/dataframe.rs`): a thin owner of one
`BlockManager`. -/
structure DataFrame where
  block : BlockManager
deriving DecidableEq, Repr

/-- Model of `DataFrame::add_series` delegates to the store. -/
def DataFrame.add_series (d : DataFrame) (other : TSeries) (preserve_names : Bool) :
    Res (Except DataFrameErrors Unit × DataFrame) :=
  (d.block.add_series other preserve_names).map (fun pr => (pr.1, ⟨pr.2⟩))

/-- Model of `DataFrame::get` (`src/core/dataframe.rs` lines 252-257) delegates to
`BlockManager::get`; its documentation promises `Some(series)` when the series
exists and `None` when it does not. -/
def DataFrame.get (d : DataFrame) (t : RType) (col : String) :
    Res (Option (Series t.carrier)) :=
  d.block.get t col

/-- Model of `impl Add for DataFrame` (`src/core/dataframe.rs` lines 490-496). -/
def DataFrame.addDF (d rhs : DataFrame) : Res DataFrame :=
  (d.block.addOp rhs.block).map (fun b => ⟨b⟩)

/-- Model of `DataFrame::assign_inplace` delegates to the store. -/
def DataFrame.assign_inplace (d : DataFrame) (t : RType) (key name : String)
    (func : t.carrier → t.carrier) : Res (Except DataFrameErrors DataFrame) :=
  (d.block.assign_inplace t key name func).map (fun e => e.map (fun b => ⟨b⟩))

/-- Model of `DataFrame::assign` delegates to the store. -/
def DataFrame.assign (d : DataFrame) (t : RType) (key name : String)
    (func : t.carrier → t.carrier) : Res (Except DataFrameErrors DataFrame) :=
  (d.block.assign t key name func).map (fun e => e.map (fun b => ⟨b⟩))

/-- Run a sequence of `add_series` attempts (each with its `preserve_names` flag),
threading the store state through both accepted and rejected attempts. -/
def runInserts (m : BlockManager) : List (TSeries × Bool) → Res BlockManager
  | [] => .ok m
  | (ts, p) :: rest => (m.add_series ts p).bind (fun pr => runInserts pr.2 rest)

/-- Lengths of the series held by an optional block. -/
def optLens {α : Type} (b : Option (Block α)) : List Nat :=
  match b with
  | none => []
  | some blk => blk.data.map (fun s => s.array.length)

/-- Lengths of every column held by the store, across all blocks. -/
def BlockManager.allLens (m : BlockManager) : List Nat :=
  optLens m.f64B ++ optLens m.f32B ++ optLens m.i64B ++ optLens m.i32B ++
    optLens m.stringB ++ optLens m.strB ++ optLens m.boolB

/-- The cross-block length invariant: every column held by the store has the
store's established length. -/
def StoreInv (m : BlockManager) : Prop := ∀ L ∈ m.allLens, L = m.len

instance (m : BlockManager) : Decidable (StoreInv m) := by
  unfold StoreInv
  infer_instance

/-- A type-erased series whose dtype field agrees with its static element type, as
every series built by the public constructors does. -/
def TSeries.wellTagged (ts : TSeries) : Prop := ts.tdtype = ts.ctorTag

/-- The blocks (Groups), the name→tag index and the presentation-order list of two
stores agree (the components claim C8 asserts are untouched). -/
def sameStore (a b : BlockManager) : Prop :=
  a.f64B = b.f64B ∧ a.f32B = b.f32B ∧ a.i64B = b.i64B ∧ a.i32B = b.i32B ∧
    a.stringB = b.stringB ∧ a.strB = b.strB ∧ a.boolB = b.boolB ∧
    a.values = b.values ∧ a.names = b.names

/-- Column `a = [1, 2]` of `f64` (as produced by
`Series::from(vec![1., 2.])` + `set_name("a")`). -/
def aF64 : Series F64 :=
  { array := [⟨1⟩, ⟨2⟩], name := "a", index := ["0", "1"], dtype := .F64 }

/-- Column `b = [3, 4]` of `f64`. -/
def bF64 : Series F64 :=
  { array := [⟨3⟩, ⟨4⟩], name := "b", index := ["0", "1"], dtype := .F64 }

/-- Column `a = [10, 20]` of `f64`. -/
def a10F64 : Series F64 :=
  { array := [⟨10⟩, ⟨20⟩], name := "a", index := ["0", "1"], dtype := .F64 }

/-- Column `c = [5, 6]` of `f64`. -/
def c56F64 : Series F64 :=
  { array := [⟨5⟩, ⟨6⟩], name := "c", index := ["0", "1"], dtype := .F64 }

/-- The store holding the single `f64` column `a = [1, 2]`. -/
def mgrA : BlockManager :=
  { f64B := some { data := [aF64], names := ["a"] }
    values := [("a", .F64)], names := ["a"], len := 2, index := ["0", "1"] }

/-- The store `{a: [1, 2], b: [3, 4]}` of the spec's arithmetic example. -/
def mgrAB : BlockManager :=
  { f64B := some { data := [aF64, bF64], names := ["a", "b"] }
    values := [("a", .F64), ("b", .F64)], names := ["a", "b"], len := 2
    index := ["0", "1"] }

/-- The store `{a: [10, 20], c: [5, 6]}` of the spec's arithmetic example. -/
def mgrAC : BlockManager :=
  { f64B := some { data := [a10F64, c56F64], names := ["a", "c"] }
    values := [("a", .F64), ("c", .F64)], names := ["a", "c"], len := 2
    index := ["0", "1"] }

/-- A one-element `i32` series carrying the custom label `"a"` (reachable via
`Series::from(vec![1])` + `reindex(vec!["a"], false)`). -/
def c5s : Series I32 :=
  { array := [⟨1⟩], name := "series", index := ["a"], dtype := .I32 }

/-- Extract the success value of a `Result` that also did not panic (used to state
concrete evaluation facts compactly). -/
def resOkOk {α : Type} (r : Res (Except DataFrameErrors α)) : Option α :=
  match r with
  | .ok (.ok a) => some a
  | _ => none

theorem Res.map_eq_ok {α β : Type} {f : α → β} {r : Res α} {b : β}
    (h : r.map f = .ok b) : ∃ a, r = .ok a ∧ b = f a := by
  cases r with
  | ok a => exact ⟨a, rfl, by simpa [Res.map] using h.symm⟩
  | panicked => simp [Res.map] at h

theorem Res.bind_eq_ok {α β : Type} {r : Res α} {f : α → Res β} {b : β}
    (h : r.bind f = .ok b) : ∃ a, r = .ok a ∧ f a = .ok b := by
  cases r with
  | ok a => exact ⟨a, rfl, h⟩
  | panicked => simp [Res.bind] at h

theorem TSeries.tlen_withName (ts : TSeries) (n : String) :
    (ts.withName n).tlen = ts.tlen := by
  cases ts <;> rfl

theorem TSeries.tname_withName (ts : TSeries) (n : String) :
    (ts.withName n).tname = n := by
  cases ts <;> rfl

theorem TSeries.tdtype_withName (ts : TSeries) (n : String) :
    (ts.withName n).tdtype = ts.tdtype := by
  cases ts <;> rfl

theorem TSeries.ctorTag_withName (ts : TSeries) (n : String) :
    (ts.withName n).ctorTag = ts.ctorTag := by
  cases ts <;> rfl

theorem blocksEmpty_allLens {m : BlockManager} (h : m.blocksEmpty = true) :
    m.allLens = [] := by
  have h64 : m.f64B = none := by
    cases hx : m.f64B <;> simp [BlockManager.blocksEmpty, hx] at h ⊢
  have h32 : m.f32B = none := by
    cases hx : m.f32B <;> simp [BlockManager.blocksEmpty, hx] at h ⊢
  have hi64 : m.i64B = none := by
    cases hx : m.i64B <;> simp [BlockManager.blocksEmpty, hx] at h ⊢
  have hi32 : m.i32B = none := by
    cases hx : m.i32B <;> simp [BlockManager.blocksEmpty, hx] at h ⊢
  have hs : m.stringB = none := by
    cases hx : m.stringB <;> simp [BlockManager.blocksEmpty, hx] at h ⊢
  have hst : m.strB = none := by
    cases hx : m.strB <;> simp [BlockManager.blocksEmpty, hx] at h ⊢
  have hb : m.boolB = none := by
    cases hx : m.boolB <;> simp [BlockManager.blocksEmpty, hx] at h ⊢
  simp [BlockManager.allLens, h64, h32, hi64, hi32, hs, hst, hb, optLens]

theorem pushInto_lens {α : Type} {b : Option (Block α)} {s : Series α}
    {blk : Block α} (h : pushInto b s = .ok blk) :
    blk.data.map (fun x => x.array.length) = optLens b ++ [s.array.length] := by
  cases b with
  | none =>
    simp only [pushInto, Block.push] at h
    cases h
    simp [optLens]
  | some bb =>
    simp only [pushInto, Block.push] at h
    revert h
    cases hd : bb.data with
    | nil =>
      intro h
      cases h
      simp [optLens, hd]
    | cons s0 rest =>
      intro h
      replace h :
          (if s0.array.length = s.array.length then
              Res.ok (⟨bb.data ++ [s], bb.names ++ [s.name]⟩ : Block α)
            else Res.panicked) = Res.ok blk := by
        rw [← h, hd]
      by_cases hl : s0.array.length = s.array.length
      · rw [if_pos hl] at h
        cases h
        simp [optLens, hd]
      · rw [if_neg hl] at h
        cases h

theorem pushInto_progress {α : Type} {b : Option (Block α)} {s : Series α}
    (h : ∀ L ∈ optLens b, L = s.array.length) : ∃ blk, pushInto b s = .ok blk := by
  cases b with
  | none => exact ⟨_, rfl⟩
  | some bb =>
    cases hd : bb.data with
    | nil => simp [pushInto, Block.push, hd]
    | cons s0 rest =>
      have h0 : s0.array.length = s.array.length := h _ (by simp [optLens, hd])
      simp [pushInto, Block.push, hd, h0]

theorem gab_ok_lens {m m' : BlockManager} {dt : DataTypes} {ts : TSeries}
    (h : m.get_appropriate_block dt ts = .ok m') :
    m'.len = m.len ∧ ∀ L ∈ m'.allLens, L ∈ m.allLens ∨ L = ts.tlen := by
  cases dt <;> cases ts <;>
      simp only [BlockManager.get_appropriate_block] at h <;>
    try exact absurd h (by simp)
  all_goals
    first
    | -- the OBJECT arm: blocks are untouched
      (revert h
       cases hl : m.names.getLast? with
       | none => intro h; exact absurd h (by simp)
       | some nm =>
         intro h
         cases h
         exact ⟨rfl, fun L hL => Or.inl hL⟩)
    | -- the seven matched push arms
      (obtain ⟨blk, hp, rfl⟩ := Res.map_eq_ok h
       have hl := pushInto_lens hp
       refine ⟨rfl, fun L hL => ?_⟩
       simp only [BlockManager.allLens, optLens, hl, List.mem_append,
         List.mem_singleton, TSeries.tlen] at hL ⊢
       tauto)

theorem gab_frame {m m' : BlockManager} {dt : DataTypes} {ts : TSeries}
    (hdt : dt ≠ .OBJECT) (h : m.get_appropriate_block dt ts = .ok m') :
    m'.names = m.names ∧ m'.values = m.values ∧ m'.len = m.len ∧
      m'.index = m.index := by
  cases dt <;> cases ts <;>
      simp only [BlockManager.get_appropriate_block] at h <;>
    try exact absurd h (by simp)
  all_goals
    first
    | exact absurd rfl hdt
    | (obtain ⟨blk, hp, rfl⟩ := Res.map_eq_ok h
       exact ⟨rfl, rfl, rfl, rfl⟩)

theorem gab_progress {m : BlockManager} {ts : TSeries}
    (hct : ts.tdtype = ts.ctorTag) (hobj : ts.ctorTag ≠ .OBJECT)
    (hlen : ∀ L ∈ m.allLens, L = ts.tlen) :
    ∃ m', m.get_appropriate_block ts.tdtype ts = .ok m' := by
  rw [hct]
  cases ts with
  | sf64 s =>
    obtain ⟨blk, hp⟩ := @pushInto_progress F64 m.f64B s
      (fun L hL => by
        have := hlen L (by simp [BlockManager.allLens, List.mem_append]; tauto)
        simpa [TSeries.tlen] using this)
    exact ⟨{ m with f64B := some blk },
      by simp [BlockManager.get_appropriate_block, TSeries.ctorTag, hp, Res.map]⟩
  | sf32 s =>
    obtain ⟨blk, hp⟩ := @pushInto_progress F32 m.f32B s
      (fun L hL => by
        have := hlen L (by simp [BlockManager.allLens, List.mem_append]; tauto)
        simpa [TSeries.tlen] using this)
    exact ⟨{ m with f32B := some blk },
      by simp [BlockManager.get_appropriate_block, TSeries.ctorTag, hp, Res.map]⟩
  | si64 s =>
    obtain ⟨blk, hp⟩ := @pushInto_progress I64 m.i64B s
      (fun L hL => by
        have := hlen L (by simp [BlockManager.allLens, List.mem_append]; tauto)
        simpa [TSeries.tlen] using this)
    exact ⟨{ m with i64B := some blk },
      by simp [BlockManager.get_appropriate_block, TSeries.ctorTag, hp, Res.map]⟩
  | si32 s =>
    obtain ⟨blk, hp⟩ := @pushInto_progress I32 m.i32B s
      (fun L hL => by
        have := hlen L (by simp [BlockManager.allLens, List.mem_append]; tauto)
        simpa [TSeries.tlen] using this)
    exact ⟨{ m with i32B := some blk },
      by simp [BlockManager.get_appropriate_block, TSeries.ctorTag, hp, Res.map]⟩
  | sstring s =>
    obtain ⟨blk, hp⟩ := @pushInto_progress String m.stringB s
      (fun L hL => by
        have := hlen L (by simp [BlockManager.allLens, List.mem_append]; tauto)
        simpa [TSeries.tlen] using this)
    exact ⟨{ m with stringB := some blk },
      by simp [BlockManager.get_appropriate_block, TSeries.ctorTag, hp, Res.map]⟩
  | sstr s =>
    obtain ⟨blk, hp⟩ := @pushInto_progress RStr m.strB s
      (fun L hL => by
        have := hlen L (by simp [BlockManager.allLens, List.mem_append]; tauto)
        simpa [TSeries.tlen] using this)
    exact ⟨{ m with strB := some blk },
      by simp [BlockManager.get_appropriate_block, TSeries.ctorTag, hp, Res.map]⟩
  | sbool s =>
    obtain ⟨blk, hp⟩ := @pushInto_progress Bool m.boolB s
      (fun L hL => by
        have := hlen L (by simp [BlockManager.allLens, List.mem_append]; tauto)
        simpa [TSeries.tlen] using this)
    exact ⟨{ m with boolB := some blk },
      by simp [BlockManager.get_appropriate_block, TSeries.ctorTag, hp, Res.map]⟩
  | sobject s => exact absurd rfl hobj


theorem TSeries.tlen_mkT (t : RType) (s : Series t.carrier) :
    (mkT t s).tlen = s.array.length := by
  cases t <;> rfl

theorem adoptIfEmpty_f64B (m : BlockManager) (o : TSeries) :
    (m.adoptIfEmpty o).f64B = m.f64B := by
  unfold BlockManager.adoptIfEmpty; split <;> rfl

theorem adoptIfEmpty_names (m : BlockManager) (o : TSeries) :
    (m.adoptIfEmpty o).names = m.names := by
  unfold BlockManager.adoptIfEmpty; split <;> rfl

theorem adoptIfEmpty_values (m : BlockManager) (o : TSeries) :
    (m.adoptIfEmpty o).values = m.values := by
  unfold BlockManager.adoptIfEmpty; split <;> rfl

theorem adoptIfEmpty_allLens (m : BlockManager) (o : TSeries) :
    (m.adoptIfEmpty o).allLens = m.allLens := by
  unfold BlockManager.adoptIfEmpty; split <;> rfl

theorem adoptIfEmpty_blocks (m : BlockManager) (o : TSeries) :
    (m.adoptIfEmpty o).f64B = m.f64B ∧ (m.adoptIfEmpty o).f32B = m.f32B ∧
      (m.adoptIfEmpty o).i64B = m.i64B ∧ (m.adoptIfEmpty o).i32B = m.i32B ∧
      (m.adoptIfEmpty o).stringB = m.stringB ∧ (m.adoptIfEmpty o).strB = m.strB ∧
      (m.adoptIfEmpty o).boolB = m.boolB := by
  unfold BlockManager.adoptIfEmpty; split <;> exact ⟨rfl, rfl, rfl, rfl, rfl, rfl, rfl⟩

theorem adoptIfEmpty_len_empty {m : BlockManager} {o : TSeries}
    (h : m.blocksEmpty = true) : (m.adoptIfEmpty o).len = o.tlen := by
  simp [BlockManager.adoptIfEmpty, h]

theorem adoptIfEmpty_len_nonempty {m : BlockManager} {o : TSeries}
    (h : m.blocksEmpty = false) : (m.adoptIfEmpty o).len = m.len := by
  simp [BlockManager.adoptIfEmpty, h]

theorem store_col_shape {m m' : BlockManager} {other : TSeries}
    {r : Except DataFrameErrors Unit} (h : m.store_col other = .ok (r, m')) :
    r = .ok () ∧
      ({ m.adoptIfEmpty other with
          names := (m.adoptIfEmpty other).names ++ [other.tname]
          values :=
            insertTag other.tname other.tdtype
              (m.adoptIfEmpty other).values }).get_appropriate_block
        other.tdtype other = .ok m' := by
  obtain ⟨m3, hgab, heq⟩ := Res.map_eq_ok h
  simp only [Prod.mk.injEq] at heq
  obtain ⟨hr, hm⟩ := heq
  subst hm
  exact ⟨hr, hgab⟩

theorem store_col_inv {m m' : BlockManager} {other : TSeries}
    {r : Except DataFrameErrors Unit} (h : m.store_col other = .ok (r, m'))
    (hne : m.blocksEmpty = false → StoreInv m ∧ other.tlen = m.len) :
    StoreInv m' := by
  obtain ⟨-, hgab⟩ := store_col_shape h
  obtain ⟨hlen3, hmem3⟩ := gab_ok_lens hgab
  have hAL :
      ({ m.adoptIfEmpty other with
          names := (m.adoptIfEmpty other).names ++ [other.tname]
          values :=
            insertTag other.tname other.tdtype
              (m.adoptIfEmpty other).values } : BlockManager).allLens =
        m.allLens := by
    rw [show ({ m.adoptIfEmpty other with
          names := (m.adoptIfEmpty other).names ++ [other.tname]
          values :=
            insertTag other.tname other.tdtype
              (m.adoptIfEmpty other).values } : BlockManager).allLens =
        (m.adoptIfEmpty other).allLens from rfl]
    exact adoptIfEmpty_allLens m other
  intro L hL
  cases hE : m.blocksEmpty with
  | true =>
    rcases hmem3 L hL with hin | hnew
    · rw [hAL, blocksEmpty_allLens hE] at hin
      exact absurd hin (List.not_mem_nil L)
    · rw [hnew, hlen3]
      exact (adoptIfEmpty_len_empty hE).symm
  | false =>
    obtain ⟨hinv, hl⟩ := hne hE
    have hlen' : ({ m.adoptIfEmpty other with
        names := (m.adoptIfEmpty other).names ++ [other.tname]
        values :=
          insertTag other.tname other.tdtype
            (m.adoptIfEmpty other).values } : BlockManager).len = m.len :=
      adoptIfEmpty_len_nonempty hE
    rcases hmem3 L hL with hin | hnew
    · rw [hAL] at hin
      rw [hlen3, hlen']
      exact hinv L hin
    · rw [hnew, hlen3, hlen', hl]

theorem store_col_len {m m' : BlockManager} {other : TSeries}
    {r : Except DataFrameErrors Unit} (h : m.store_col other = .ok (r, m')) :
    m'.len = (m.adoptIfEmpty other).len := by
  obtain ⟨-, hgab⟩ := store_col_shape h
  exact (gab_ok_lens hgab).1

theorem store_col_progress {m : BlockManager} {other : TSeries}
    (hct : other.tdtype = other.ctorTag) (hobj : other.ctorTag ≠ .OBJECT)
    (hne : m.blocksEmpty = false → StoreInv m ∧ other.tlen = m.len) :
    ∃ m', m.store_col other = .ok (.ok (), m') := by
  have hlens :
      ∀ L ∈ ({ m.adoptIfEmpty other with
          names := (m.adoptIfEmpty other).names ++ [other.tname]
          values :=
            insertTag other.tname other.tdtype
              (m.adoptIfEmpty other).values } : BlockManager).allLens,
        L = other.tlen := by
    intro L hL
    rw [show ({ m.adoptIfEmpty other with
          names := (m.adoptIfEmpty other).names ++ [other.tname]
          values :=
            insertTag other.tname other.tdtype
              (m.adoptIfEmpty other).values } : BlockManager).allLens =
        (m.adoptIfEmpty other).allLens from rfl, adoptIfEmpty_allLens] at hL
    cases hE : m.blocksEmpty with
    | true =>
      rw [blocksEmpty_allLens hE] at hL
      exact absurd hL (List.not_mem_nil L)
    | false =>
      obtain ⟨hinv, hl⟩ := hne hE
      rw [hinv L hL, hl]
  obtain ⟨m3, hg⟩ := gab_progress hct hobj hlens
  exact ⟨m3, by unfold BlockManager.store_col; rw [hg]; rfl⟩

theorem add_series_inv {m m' : BlockManager} {ts : TSeries} {p : Bool}
    {r : Except DataFrameErrors Unit}
    (h : m.add_series ts p = .ok (r, m')) (hinv : StoreInv m) : StoreInv m' := by
  unfold BlockManager.add_series at h
  have hne : m.blocksEmpty = false → ts.tlen = m.len → False → True := fun _ _ _ =>
    trivial
  by_cases hc1 : m.blocksEmpty = false ∧ ts.tlen ≠ m.len
  · rw [if_pos hc1] at h
    simp only [Res.ok.injEq, Prod.mk.injEq] at h
    exact h.2 ▸ hinv
  · rw [if_neg hc1] at h
    have hpre : m.blocksEmpty = false → StoreInv m ∧ ts.tlen = m.len := fun hE =>
      ⟨hinv, by by_contra hx; exact hc1 ⟨hE, hx⟩⟩
    by_cases hc2 : (m.names.contains ts.tname || !p) = true
    · rw [if_pos hc2] at h
      by_cases hc3 : m.names.contains (toString m.values.length) = true
      · rw [if_pos hc3] at h
        simp only [Res.ok.injEq, Prod.mk.injEq] at h
        exact h.2 ▸ hinv
      · rw [if_neg hc3] at h
        exact store_col_inv h (by
          intro hE
          obtain ⟨h1, h2⟩ := hpre hE
          exact ⟨h1, by rw [TSeries.tlen_withName]; exact h2⟩)
    · rw [if_neg hc2] at h
      exact store_col_inv h hpre

theorem add_series_err_id {m m' : BlockManager} {ts : TSeries} {p : Bool}
    {e : DataFrameErrors}
    (h : m.add_series ts p = .ok (.error e, m')) : m' = m := by
  unfold BlockManager.add_series at h
  by_cases hc1 : m.blocksEmpty = false ∧ ts.tlen ≠ m.len
  · rw [if_pos hc1] at h
    simp only [Res.ok.injEq, Prod.mk.injEq] at h
    exact h.2.symm
  · rw [if_neg hc1] at h
    by_cases hc2 : (m.names.contains ts.tname || !p) = true
    · rw [if_pos hc2] at h
      by_cases hc3 : m.names.contains (toString m.values.length) = true
      · rw [if_pos hc3] at h
        simp only [Res.ok.injEq, Prod.mk.injEq] at h
        exact h.2.symm
      · rw [if_neg hc3] at h
        exact absurd (store_col_shape h).1 (by simp)
    · rw [if_neg hc2] at h
      exact absurd (store_col_shape h).1 (by simp)

theorem add_series_reject_length {m : BlockManager} {ts : TSeries} {p : Bool}
    (hne : m.blocksEmpty = false) (hlen : ts.tlen ≠ m.len) :
    m.add_series ts p = .ok (.error (.DifferentLength ts.tlen m.len), m) := by
  unfold BlockManager.add_series
  rw [if_pos ⟨hne, hlen⟩]

theorem runInserts_inv :
    ∀ (ops : List (TSeries × Bool)) {m m' : BlockManager},
      StoreInv m → runInserts m ops = .ok m' → StoreInv m' := by
  intro ops
  induction ops with
  | nil =>
    intro m m' hi h
    simp only [runInserts, Res.ok.injEq] at h
    subst h
    exact hi
  | cons op rest ih =>
    intro m m' hi h
    obtain ⟨ts, p⟩ := op
    simp only [runInserts] at h
    obtain ⟨⟨r, mm⟩, h1, h2⟩ := Res.bind_eq_ok h
    exact ih (add_series_inv h1 hi) h2

theorem add_series_first_len {ts : TSeries} {q : Bool} {m' : BlockManager}
    (h : BlockManager.empty.add_series ts q = .ok (.ok (), m')) :
    m'.len = ts.tlen := by
  have hE : BlockManager.empty.blocksEmpty = true := by decide
  unfold BlockManager.add_series at h
  rw [if_neg (by simp [hE])] at h
  by_cases hc2 :
      (BlockManager.empty.names.contains ts.tname || !q) = true
  · rw [if_pos hc2] at h
    by_cases hc3 :
        BlockManager.empty.names.contains
          (toString BlockManager.empty.values.length) = true
    · exact absurd hc3 (by decide)
    · rw [if_neg hc3] at h
      rw [store_col_len h, adoptIfEmpty_len_empty hE, TSeries.tlen_withName]
  · rw [if_neg hc2] at h
    rw [store_col_len h, adoptIfEmpty_len_empty hE]

theorem lookupTag_insertTag_self (k : String) (v : DataTypes)
    (l : List (String × DataTypes)) :
    lookupTag k (insertTag k v l) = some v := by
  induction l with
  | nil => simp [insertTag, lookupTag]
  | cons q rest ih =>
    by_cases hq : q.1 = k
    · simp [insertTag, lookupTag, hq]
    · by_cases hr : (lookupTag k rest).isSome
      · have hins : insertTag k v rest = rest.map (fun x => if x.1 = k then (k, v) else x) := by
          simp [insertTag, hr]
        simp only [insertTag, lookupTag, hq, if_neg hq, Option.isSome] at *
        simp [lookupTag, hq, hr, hins] at ih ⊢
        split
        · simpa [insertTag, hr, hins] using ih
        · simpa [insertTag, hr, hins] using ih
      · have hnone : lookupTag k rest = none := by
          cases hx : lookupTag k rest with
          | none => rfl
          | some w => rw [hx] at hr; simp at hr
        have hins : insertTag k v rest = rest ++ [(k, v)] := by
          simp [insertTag, hnone]
        simp only [insertTag, lookupTag, hq, hnone] at *
        simp [lookupTag, hq, hins] at ih ⊢
        simpa [insertTag, hnone, hins] using ih

theorem lookupTag_none_forall {k : String} {l : List (String × DataTypes)}
    (h : lookupTag k l = none) : ∀ q ∈ l, q.1 ≠ k := by
  induction l with
  | nil => simp
  | cons q rest ih =>
    intro w hw
    rw [List.mem_cons] at hw
    rcases hw with rfl | hw
    · intro hk
      simp [lookupTag, hk] at h
    · by_cases hq : q.1 = k
      · simp [lookupTag, hq] at h
      · exact ih (by simpa [lookupTag, hq] using h) w hw

theorem removeKey_insertTag_fresh {k : String} {v : DataTypes}
    {l : List (String × DataTypes)} (h : lookupTag k l = none) :
    removeKey k (insertTag k v l) = l := by
  have hins : insertTag k v l = l ++ [(k, v)] := by
    simp [insertTag, h]
  rw [hins]
  unfold removeKey
  rw [List.filter_append]
  have h1 : l.filter (fun p => p.1 ≠ k) = l :=
    List.filter_eq_self.mpr (fun q hq => by
      simpa using lookupTag_none_forall h q hq)
  have h2 : List.filter (fun p => p.1 ≠ k) [(k, v)] = [] := by
    simp [List.filter]
  rw [h1, h2, List.append_nil]

theorem lookupTag_some_mem {k : String} {l : List (String × DataTypes)} {v : DataTypes}
    (h : lookupTag k l = some v) : (k, v) ∈ l := by
  induction l with
  | nil => simp [lookupTag] at h
  | cons q rest ih =>
    by_cases hq : q.1 = k
    · obtain ⟨a, b⟩ := q
      simp only [lookupTag] at h
      simp only at hq
      rw [if_pos hq] at h
      injection h with hb
      subst hq
      subst hb
      exact List.mem_cons_self _ _
    · rw [List.mem_cons]
      right
      refine ih ?_
      simpa [lookupTag, hq] using h

theorem store_col_frame {m m' : BlockManager} {other : TSeries}
    {r : Except DataFrameErrors Unit}
    (hobj : other.tdtype ≠ .OBJECT) (h : m.store_col other = .ok (r, m')) :
    r = .ok () ∧ m'.names = m.names ++ [other.tname] ∧
      m'.values = insertTag other.tname other.tdtype m.values := by
  obtain ⟨hr, hgab⟩ := store_col_shape h
  obtain ⟨hn, hv, -, -⟩ := gab_frame hobj hgab
  refine ⟨hr, ?_, ?_⟩
  · rw [hn,
      show ({ m.adoptIfEmpty other with
          names := (m.adoptIfEmpty other).names ++ [other.tname]
          values := insertTag other.tname other.tdtype
            (m.adoptIfEmpty other).values } : BlockManager).names =
        (m.adoptIfEmpty other).names ++ [other.tname] from rfl,
      adoptIfEmpty_names]
  · rw [hv,
      show ({ m.adoptIfEmpty other with
          names := (m.adoptIfEmpty other).names ++ [other.tname]
          values := insertTag other.tname other.tdtype
            (m.adoptIfEmpty other).values } : BlockManager).values =
        insertTag other.tname other.tdtype (m.adoptIfEmpty other).values from rfl,
      adoptIfEmpty_values]

theorem store_col_object {m : BlockManager} {other : TSeries}
    (hdt : other.tdtype = .OBJECT)
    (hfresh : lookupTag other.tname m.values = none) :
    m.store_col other =
      .ok (.ok (),
        { m.adoptIfEmpty other with names := m.names, values := m.values }) := by
  unfold BlockManager.store_col BlockManager.get_appropriate_block
  rw [hdt]
  rw [show ({ m.adoptIfEmpty other with
      names := (m.adoptIfEmpty other).names ++ [other.tname]
      values := insertTag other.tname other.tdtype
        (m.adoptIfEmpty other).values } : BlockManager).names =
      (m.adoptIfEmpty other).names ++ [other.tname] from rfl]
  rw [List.getLast?_concat]
  simp only [Res.map, Res.ok.injEq, Prod.mk.injEq, true_and]
  rw [List.dropLast_concat]
  have hv : removeKey other.tname
      (insertTag other.tname other.tdtype (m.adoptIfEmpty other).values) =
      (m.adoptIfEmpty other).values := by
    rw [adoptIfEmpty_values]
    exact removeKey_insertTag_fresh hfresh
  rw [hdt] at hv
  rw [hv, adoptIfEmpty_names, adoptIfEmpty_values]

theorem equalsVals_ok_iff {α : Type} [DecidableEq α] :
    ∀ (xs ys : List α), xs.length = ys.length →
      (equalsVals xs ys = .ok true ↔ ∀ q ∈ xs.zip ys, q.1 ≠ q.2) := by
  intro xs
  induction xs with
  | nil => intro ys h; simp [equalsVals]
  | cons x xs ih =>
    intro ys h
    cases ys with
    | nil => simp at h
    | cons y ys =>
      simp only [equalsVals]
      by_cases hxy : x = y
      · rw [if_pos hxy]
        constructor
        · intro hh
          exact absurd hh (by simp)
        · intro hall
          exact ((hall (x, y) (by simp)) hxy).elim
      · rw [if_neg hxy]
        rw [ih ys (by simpa using h)]
        constructor
        · intro htail q hq
          rcases List.mem_cons.mp hq with rfl | hq
          · exact hxy
          · exact htail q hq
        · intro hall q hq
          exact hall q (List.mem_cons.mpr (Or.inr hq))

/-- C10: on equal-length series, `Series::equals` returns `true` exactly when there
is NO position at which the two series hold equal elements (so any non-empty series
compares `false` against itself, and the empty series compares `true`) — the
observed behaviour of the inverted comparison in
`src/core/series/generic.rs` lines 346-363. -/
theorem C10_equals_iff_no_equal_position {α : Type} [DecidableEq α]
    (a b : Series α) (hlen : a.len = b.len) :
    (a.equals b = .ok true ↔ ∀ q ∈ a.array.zip b.array, q.1 ≠ q.2)
  ∧ (a.array ≠ [] → a.equals a = .ok false)
  ∧ (a.array = [] → a.equals a = .ok true) := by
  refine ⟨equalsVals_ok_iff a.array b.array hlen, ?_, ?_⟩
  · intro hne
    cases hx : a.array with
    | nil => exact absurd hx hne
    | cons z zs => simp [Series.equals, hx, equalsVals]
  · intro he
    simp [Series.equals, he, equalsVals]

/-- C10 witness: the theorem applied to the concrete columns `a = [1, 2]` and
`b = [3, 4]`. -/
theorem C10_equals_witness :
    ((aF64.equals bF64 = .ok true ↔ ∀ q ∈ aF64.array.zip bF64.array, q.1 ≠ q.2)
  ∧ (aF64.array ≠ [] → aF64.equals aF64 = .ok false)
  ∧ (aF64.array = [] → aF64.equals aF64 = .ok true)) :=
  C10_equals_iff_no_equal_position aF64 bF64 (by decide)

/-- C9: the tag function is total and value-independent (the same concrete type
always yields the same tag), its ordered `Any::is` chain resolves each supported
type to its tag and every unrecognized type to OBJECT, and a constructor-built
series' dtype is the tag of its first element (the tag of the element type's
default value when the input is empty). -/
theorem C9_tag_resolution_and_constructor_dtype :
    ((∀ v : F64, get_type v = .F64) ∧ (∀ v : F32, get_type v = .F32) ∧
      (∀ v : I64, get_type v = .I64) ∧ (∀ v : I32, get_type v = .I32) ∧
      (∀ v : String, get_type v = .STRING) ∧ (∀ v : RStr, get_type v = .STR) ∧
      (∀ v : Bool, get_type v = .BOOL) ∧ (∀ v : Opaque, get_type v = .OBJECT))
  ∧ (∀ {α : Type} (iR : Rusty α) (iI : Inhabited α) (l : List α),
      (@Series.fromList α iR iI l).dtype = @get_type α iR (l.headD iI.default))
  ∧ (∀ {α : Type} (iR : Rusty α) (iI : Inhabited α),
      (@Series.defaultS α iR iI).dtype = @get_type α iR iI.default) := by
  exact ⟨⟨fun _ => rfl, fun _ => rfl, fun _ => rfl, fun _ => rfl, fun _ => rfl,
      fun _ => rfl, fun _ => rfl, fun _ => rfl⟩,
    fun _ _ _ => rfl, fun _ _ => rfl⟩

/-- C5 counterexample: `Series::apply` does NOT preserve the index — on the
series `[1]` relabelled to `["a"]` (via `reindex`), applying the identity yields
a series whose index is the default `["0"]`, not `["a"]`, because `apply` rebuilds
the result with `Series::from` before copying only the name. -/
theorem C5_counterexample_index_not_preserved :
    (Series.fromList [(⟨1⟩ : I32)]).reindex ["a"] false = .ok c5s
    ∧ (c5s.apply (fun x => x)).index ≠ c5s.index := by
  exact ⟨by decide, by decide⟩

/-- C5 (amended): the elementwise operations `apply`, `mask` and `transform`
preserve the input column's name but RESET its index to the default positional
labels `0..len-1`; only the in-place variant `apply_inplace` preserves both name
and index. There are no effects beyond the produced (or mutated) column. -/
theorem C5_elementwise_name_preserved_index_reset {α β : Type}
    [Rusty α] [Inhabited α] [Rusty β] [Inhabited β]
    (s : Series α) (func : α → α) (tfunc : α → β) (value : α) (cond : α → Bool) :
    ((s.apply func).name = s.name ∧
      (s.apply func).index = create_index s.len "" "")
  ∧ ((s.mask value cond).name = s.name ∧
      (s.mask value cond).index = create_index s.len "" "")
  ∧ ((s.transform tfunc).name = s.name ∧
      (s.transform tfunc).index = create_index s.len "" "")
  ∧ ((s.apply_inplace func).name = s.name ∧
      (s.apply_inplace func).index = s.index) := by
  refine ⟨⟨rfl, ?_⟩, ⟨rfl, ?_⟩, ⟨rfl, ?_⟩, ⟨rfl, rfl⟩⟩ <;>
    simp [Series.apply, Series.mask, Series.transform, Series.fromList,
      Series.set_name, Series.len]

/-- C6: in release builds the `debug_assert_eq!` length check of `Series::combine`
is compiled out: combining `[1]` with the longer `[2, 3]` RETURNS a length-1 result
(silently ignoring the tail of the other column) instead of failing, while a debug
build panics on the same input. -/
theorem C6_release_combine_truncates :
    Series.combine (Series.fromList [(⟨1⟩ : I32)]) (Series.fromList [⟨2⟩, ⟨3⟩])
        (fun x y => ⟨x.val + y.val⟩) = .ok (Series.fromList [(⟨3⟩ : I32)])
    ∧ Series.combine_dbg (Series.fromList [(⟨1⟩ : I32)])
        (Series.fromList [⟨2⟩, ⟨3⟩]) (fun x y => ⟨x.val + y.val⟩) = .panicked := by
  exact ⟨by decide, by decide⟩

/-- C1: typed retrieval does NOT return the single "not found" outcome in every
failure case.  On the store holding only the `f64` column `a` (built by one
`add_series` call), `get::<f64>("b")` PANICS — the `f64` block exists, so
`Block::get_series_at_name` runs `position(..).unwrap()` on an absent name —
while `get::<i64>("b")` returns `None` only because no `i64` block exists.
This contradicts `DataFrame::get`'s documented contract of returning `None`
when the series does not exist. -/
theorem C1_typed_get_panics_when_type_block_exists :
    runInserts BlockManager.empty
        [(.sf64 ((Series.fromList [(⟨1⟩ : F64), ⟨2⟩]).set_name "a"), true)] =
      .ok mgrA
    ∧ (DataFrame.mk mgrA).get .rf64 "b" = .panicked
    ∧ (DataFrame.mk mgrA).get .ri64 "b" = .ok none := by
  exact ⟨by decide, by decide, by decide⟩

/-- C3: the spec's own example panics instead of yielding the intersection. With
`t1 = {a: [1, 2], b: [3, 4]}` and `t2 = {a: [10, 20], c: [5, 6]}` (both `f64`),
`t1 + t2` PANICS while processing `b`: `rhs.get::<f64>("b")` finds `t2`'s `f64`
block and unwraps an absent name, instead of dropping `b` and returning
`{a: [11, 22]}` as the claim states. -/
theorem C3_table_addition_panics_on_spec_example :
    runInserts BlockManager.empty
        [(.sf64 ((Series.fromList [(⟨1⟩ : F64), ⟨2⟩]).set_name "a"), true),
         (.sf64 ((Series.fromList [(⟨3⟩ : F64), ⟨4⟩]).set_name "b"), true)] =
      .ok mgrAB
    ∧ runInserts BlockManager.empty
        [(.sf64 ((Series.fromList [(⟨10⟩ : F64), ⟨20⟩]).set_name "a"), true),
         (.sf64 ((Series.fromList [(⟨5⟩ : F64), ⟨6⟩]).set_name "c"), true)] =
      .ok mgrAC
    ∧ (DataFrame.mk mgrAB).addDF (DataFrame.mk mgrAC) = .panicked := by
  exact ⟨by decide, by decide, by decide⟩

/-- C4: `assign_inplace` inserts the WRONG column. On the store `{a: [1, 2]}`
(`f64`), `assign_inplace::<f64>("a", "b", +1)` returns `Ok` but the mutated store
gains a copy of the ORIGINAL column `a`, auto-renamed to `"1"` — no column `"b"`
exists and no value was transformed — because the source pushes the fetched
`series` instead of the computed `new_series`.  The non-inplace `assign` on the
same input correctly adds `b = [2, 3]`. -/
theorem C4_assign_inplace_stores_original_column :
    (resOkOk (mgrA.assign_inplace .rf64 "a" "b" (fun x => ⟨x.val + 1⟩))).map
        (fun mm => mm.names) = some ["a", "1"]
    ∧ (resOkOk (mgrA.assign_inplace .rf64 "a" "b" (fun x => ⟨x.val + 1⟩))).map
        (fun mm => lookupTag "b" mm.values) = some none
    ∧ (resOkOk (mgrA.assign_inplace .rf64 "a" "b" (fun x => ⟨x.val + 1⟩))).map
        (fun mm => mm.get .rf64 "1") =
      some (.ok (some (⟨[⟨1⟩, ⟨2⟩], "1", ["0", "1"], .F64⟩ : Series F64)))
    ∧ (resOkOk (mgrA.assign .rf64 "a" "b" (fun x => ⟨x.val + 1⟩))).map
        (fun mm => mm.names) = some ["a", "b"]
    ∧ (resOkOk (mgrA.assign .rf64 "a" "b" (fun x => ⟨x.val + 1⟩))).map
        (fun mm => mm.get .rf64 "b") =
      some (.ok (some (⟨[⟨2⟩, ⟨3⟩], "b", ["0", "1"], .F64⟩ : Series F64))) := by
  exact ⟨by decide, by decide, by decide, by decide, by decide⟩

/-- C2: the cross-column length invariant and insertion atomicity of
`BlockManager::add_series`. When the store satisfies the invariant (every held
column's length equals the store's established length — hence every column is as
long as the first stored column): (1) any successful insertion preserves it;
(2) an insertion whose length differs from the established length is rejected with
the `DifferentLength` error and the store is returned unchanged; (3) every
rejected insertion leaves the store (blocks, name→tag index, presentation order,
length, row labels) exactly as it was; (4) any store reached from the empty store
by a sequence of insertion attempts satisfies the invariant; (5) the first
successful insertion into an empty store establishes the store's length as that
column's length. -/
theorem C2_length_invariant_and_atomicity (m : BlockManager) (other : TSeries)
    (p : Bool) (hinv : StoreInv m) :
    (∀ m', m.add_series other p = .ok (.ok (), m') → StoreInv m')
  ∧ (m.blocksEmpty = false → other.tlen ≠ m.len →
      m.add_series other p = .ok (.error (.DifferentLength other.tlen m.len), m))
  ∧ (∀ e m', m.add_series other p = .ok (.error e, m') → m' = m)
  ∧ (∀ ops m', runInserts BlockManager.empty ops = .ok m' → StoreInv m')
  ∧ (∀ ts q m', BlockManager.empty.add_series ts q = .ok (.ok (), m') →
      m'.len = ts.tlen) := by
  refine ⟨fun m' h => add_series_inv h hinv,
    fun hne hl => add_series_reject_length hne hl,
    fun e m' h => add_series_err_id h,
    fun ops m' h => runInserts_inv ops (by decide) h,
    fun ts q m' h => add_series_first_len h⟩

/-- C2 witness: the theorem applied to the store `{a: [1, 2]}` and the incoming
column `b = [3, 4]`, with the invariant hypothesis discharged by evaluation. -/
theorem C2_length_invariant_witness :
    ((∀ m', mgrA.add_series (.sf64 bF64) true = .ok (.ok (), m') → StoreInv m')
  ∧ (mgrA.blocksEmpty = false → (TSeries.sf64 bF64).tlen ≠ mgrA.len →
      mgrA.add_series (.sf64 bF64) true =
        .ok (.error (.DifferentLength (TSeries.sf64 bF64).tlen mgrA.len), mgrA))
  ∧ (∀ e m', mgrA.add_series (.sf64 bF64) true = .ok (.error e, m') → m' = mgrA)
  ∧ (∀ ops m', runInserts BlockManager.empty ops = .ok m' → StoreInv m')
  ∧ (∀ ts q m', BlockManager.empty.add_series ts q = .ok (.ok (), m') →
      m'.len = ts.tlen)) :=
  C2_length_invariant_and_atomicity mgrA (.sf64 bF64) true (by decide)

/-- C7: inserting (with `preserve_names = true`) a column whose name is already in
the store renames the incoming column to the store's current column count rendered
as a string (`values.len()`); when that renumbered name also collides with an
existing name, `add_series` fails with the recoverable `ColumnNameErrors` error and
the store is unchanged (the colliding column is not stored); when it does not
collide, the insertion succeeds and the column is recorded under the renumbered
name. -/
theorem C7_collision_renumbering (m : BlockManager) (other : TSeries)
    (hcollide : m.names.contains other.tname = true)
    (hct : other.tdtype = other.ctorTag) (hobj : other.ctorTag ≠ .OBJECT)
    (hinv : StoreInv m) (hlen : other.tlen = m.len) :
    (m.names.contains (toString m.values.length) = true →
      m.add_series other true =
        .ok (.error (.ColumnNameErrors (toString m.values.length)), m))
  ∧ (m.names.contains (toString m.values.length) = false →
      ∃ m', m.add_series other true = .ok (.ok (), m')
        ∧ m'.names = m.names ++ [toString m.values.length]
        ∧ lookupTag (toString m.values.length) m'.values = some other.tdtype) := by
  constructor
  · intro hc3
    unfold BlockManager.add_series
    rw [if_neg (by simp [hlen]), if_pos (by rw [hcollide]; rfl), if_pos hc3]
  · intro hc3
    have hpre : m.blocksEmpty = false →
        StoreInv m ∧
          (other.withName (toString m.values.length)).tlen = m.len := fun _ =>
      ⟨hinv, by rw [TSeries.tlen_withName]; exact hlen⟩
    obtain ⟨m', hsc⟩ :=
      @store_col_progress m (other.withName (toString m.values.length))
        (by rw [TSeries.tdtype_withName, TSeries.ctorTag_withName]; exact hct)
        (by rw [TSeries.ctorTag_withName]; exact hobj) hpre
    have hobj' : (other.withName (toString m.values.length)).tdtype ≠ .OBJECT := by
      rw [TSeries.tdtype_withName, hct]
      exact hobj
    obtain ⟨-, hn, hv⟩ := store_col_frame hobj' hsc
    refine ⟨m', ?_, ?_, ?_⟩
    · unfold BlockManager.add_series
      rw [if_neg (by simp [hlen]), if_pos (by rw [hcollide]; rfl),
        if_neg (by rw [hc3]; simp)]
      exact hsc
    · rw [hn, TSeries.tname_withName]
    · rw [hv, TSeries.tname_withName, TSeries.tdtype_withName]
      exact lookupTag_insertTag_self (toString m.values.length) other.tdtype m.values

/-- C7 witness: the theorem applied to the store `{a: [1, 2]}` and a second
incoming `f64` column also named `a`; one column exists, so the renumbered name is
`"1"`, which does not collide, and the second conjunct yields the successful
renamed insertion. -/
theorem C7_collision_renumbering_witness :
    ((mgrA.names.contains (toString mgrA.values.length) = true →
      mgrA.add_series (.sf64 aF64) true =
        .ok (.error (.ColumnNameErrors (toString mgrA.values.length)), mgrA))
  ∧ (mgrA.names.contains (toString mgrA.values.length) = false →
      ∃ m', mgrA.add_series (.sf64 aF64) true = .ok (.ok (), m')
        ∧ m'.names = mgrA.names ++ [toString mgrA.values.length]
        ∧ lookupTag (toString mgrA.values.length) m'.values =
            some (TSeries.sf64 aF64).tdtype)) :=
  C7_collision_renumbering mgrA (.sf64 aF64) (by decide) (by decide) (by decide)
    (by decide) (by decide)

/-- C8: inserting a column whose tag is OBJECT (Unsupported) never stores it and
never panics: `add_series` returns (with an `Ok` or a recoverable error), and the
store's groups (all seven blocks), name→tag index and presentation-order list are
exactly what they were before the attempt — on the main path the column is dropped
with only a diagnostic message printed to stderr. -/
theorem C8_unsupported_column_not_stored (m : BlockManager) (other : TSeries)
    (p : Bool) (hdt : other.tdtype = .OBJECT)
    (hwf : ∀ q ∈ m.values, q.1 ∈ m.names) :
    ∃ r m', m.add_series other p = .ok (r, m') ∧ sameStore m' m := by
  unfold BlockManager.add_series
  by_cases hc1 : m.blocksEmpty = false ∧ other.tlen ≠ m.len
  · rw [if_pos hc1]
    exact ⟨_, m, rfl, rfl, rfl, rfl, rfl, rfl, rfl, rfl, rfl, rfl⟩
  · rw [if_neg hc1]
    by_cases hc2 : (m.names.contains other.tname || !p) = true
    · rw [if_pos hc2]
      by_cases hc3 : m.names.contains (toString m.values.length) = true
      · rw [if_pos hc3]
        exact ⟨_, m, rfl, rfl, rfl, rfl, rfl, rfl, rfl, rfl, rfl, rfl⟩
      · rw [if_neg hc3]
        have hfresh :
            lookupTag (other.withName (toString m.values.length)).tname m.values =
              none := by
          rw [TSeries.tname_withName]
          cases hx : lookupTag (toString m.values.length) m.values with
          | none => rfl
          | some v =>
            exact absurd (hwf _ (lookupTag_some_mem hx)) (by simpa using hc3)
        have hsc := @store_col_object m
          (other.withName (toString m.values.length))
          (by rw [TSeries.tdtype_withName]; exact hdt) hfresh
        obtain ⟨h1, h2, h3, h4, h5, h6, h7⟩ :=
          adoptIfEmpty_blocks m (other.withName (toString m.values.length))
        exact ⟨_, _, hsc, h1, h2, h3, h4, h5, h6, h7, rfl, rfl⟩
    · rw [if_neg hc2]
      have hcf : m.names.contains other.tname = false := by
        cases hx : m.names.contains other.tname with
        | false => rfl
        | true => exact absurd (by rw [hx]; rfl) hc2
      have hfresh : lookupTag other.tname m.values = none := by
        cases hx : lookupTag other.tname m.values with
        | none => rfl
        | some v =>
          exact absurd (hwf _ (lookupTag_some_mem hx)) (by simpa using hcf)
      have hsc := store_col_object hdt hfresh
      obtain ⟨h1, h2, h3, h4, h5, h6, h7⟩ := adoptIfEmpty_blocks m other
      exact ⟨_, _, hsc, h1, h2, h3, h4, h5, h6, h7, rfl, rfl⟩

/-- C8 witness: the theorem applied to the store `{a: [1, 2]}` and an
Unsupported-tagged incoming column of matching length. -/
theorem C8_unsupported_column_witness :
    ∃ r m',
      mgrA.add_series (.sobject (Series.fromList [(⟨()⟩ : Opaque), ⟨()⟩])) true =
        .ok (r, m') ∧ sameStore m' mgrA :=
  C8_unsupported_column_not_stored mgrA
    (.sobject (Series.fromList [(⟨()⟩ : Opaque), ⟨()⟩])) true (by decide)
    (by decide)
